import Mathlib

set_option maxHeartbeats 1000000

/-!
Shallow embedding of the eotel telemetry core (config.go, logger.go,
middleware.go).  Collaborator calls (zap structured-log backend, OTel span
backend, metrics instruments, Loki export channel, Sentry capture, gin abort)
are modelled as an effect trace; machine state is passed explicitly.
Opaque runtime data (context identity, timestamps, backend handles, the
trace and span identifiers the tracing backend assigns) are modelled as
explicit parameters or deterministic tags, since every claim treats them as
payload only.
-/

/-- Configuration snapshot, the fields of config.go that the emission path
reads (globalCfg.ServiceName, globalCfg.JobName, globalCfg.EnableLoki).
The global variable is modelled as an explicit parameter. -/
structure Config where
  serviceName : String
  jobName : String
  enableLoki : Bool
deriving DecidableEq

/-- Values callers pass to WithField (Go: any).  format models
fmt.Sprintf with the v verb, used by WithField to stringify span
attributes. -/
inductive GoVal where
  | str (s : String)
  | int (n : Int)
  | errv (msg : String)
deriving DecidableEq

/-- Go fmt.Sprintf with the v verb on the modelled values. -/
def GoVal.format : GoVal → String
  | .str s => s
  | .int n => toString n
  | .errv m => m

/-- One zap field: key plus native-typed value (zap.Any / zap.String /
zap.Error). -/
structure ZapField where
  key : String
  val : GoVal
deriving DecidableEq

/-- Span-attribute values: attribute.String carries a string,
attribute.Float64 carries the duration.  Durations are reals in the source;
they are modelled by an opaque numeric parameter because no claim depends on
duration arithmetic. -/
inductive AttrVal where
  | str (s : String)
  | floatMs (n : Nat)
deriving DecidableEq

/-- One OTel span attribute (attribute.KeyValue). -/
structure Attr where
  key : String
  val : AttrVal
deriving DecidableEq

/-- The state of one OTel SDK span: its immutable span context (trace and
span identifiers) and whether End has already been called. -/
structure SpanData where
  traceID : String
  spanID : String
  ended : Bool
deriving DecidableEq

/-- Calls that reach the external collaborators, in program order:
zap write, process termination, Loki channel enqueue (defaultExporter.Send),
tracer span start, span attribute/error/end submissions that the OTel SDK
lets through, metrics instrument calls, Sentry capture, gin abort. -/
inductive Effect where
  | logWrite (level msg : String) (fields : List ZapField)
  | procExit (code : Nat)
  | lokiEnqueue (level msg traceID spanID : String)
  | spanStartCall (name : String)
  | spanSetAttrs (attrs : List Attr)
  | spanRecordError (e : String)
  | spanEndCall
  | counterAdd (level : String)
  | histRecord (level : String) (durationMs : Nat)
  | sentryCapture (e : String)
  | abortWithStatus (code : Nat)
deriving DecidableEq

/-- How control leaves an operation: normal return, process termination
(os.Exit), or a runtime panic propagating to the caller. -/
inductive Outcome where
  | ok
  | exited (code : Nat)
  | panicked (msg : String)
deriving DecidableEq

/-- The five severities of the public emission API. -/
inductive Level where
  | debug
  | info
  | warn
  | error
  | fatal
deriving DecidableEq

/-- The severity string used for the level field, the switch in log, and the
metrics attributes. -/
def Level.toStr : Level → String
  | .debug => "debug"
  | .info => "info"
  | .warn => "warn"
  | .error => "error"
  | .fatal => "fatal"

/-- The Eotel logger struct (logger.go lines 53 to 67).  ctx, logger, tracer,
meter and exporter are opaque handles (no claim inspects their contents);
hasLogCounter and hasDurationHist record whether the two metric instrument
interface fields are non-nil, because calling a method on a nil Go interface
panics.  start is the creation timestamp (opaque tick). -/
structure Eotel where
  ctx : Nat
  loggerRef : Nat
  tracerRef : Nat
  meterRef : Nat
  exporterRef : Nat
  span : Option SpanData
  hasLogCounter : Bool
  hasDurationHist : Bool
  fields : List ZapField
  attrs : List Attr
  err : Option String
  name : String
  start : Nat
deriving DecidableEq

/-- Trace and span identifiers assigned by the tracing backend to a fresh
span; modelled deterministically from the span name because the claims treat
them as opaque payload. -/
def newSpan (name : String) : SpanData :=
  { traceID := "trace-" ++ name, spanID := "span-" ++ name, ended := false }

/-- OTel SDK span SetAttributes: a no-op once the span has ended, otherwise
the attributes reach the backend span record. -/
def SpanData.setAttributes (s : SpanData) (as : List Attr) : SpanData × List Effect :=
  if s.ended then (s, []) else (s, [.spanSetAttrs as])

/-- OTel SDK span RecordError: a no-op once the span has ended. -/
def SpanData.recordErrorCall (s : SpanData) (e : String) : SpanData × List Effect :=
  if s.ended then (s, []) else (s, [.spanRecordError e])

/-- OTel SDK span End: per the OTel contract the first call submits the span
to the backend and marks it ended; subsequent calls are ignored and submit
nothing. -/
def SpanData.endCall (s : SpanData) : SpanData × List Effect :=
  if s.ended then (s, []) else ({ s with ended := true }, [.spanEndCall])

/-- New (logger.go lines 69 to 83): fresh logger with no span, empty fields
and attrs, both instruments initialized (initMetrics), process-wide backend
handles, creation time now. -/
def newEotel (ctx now : Nat) (name : String) : Eotel :=
  { ctx := ctx
    loggerRef := 0
    tracerRef := 0
    meterRef := 0
    exporterRef := 0
    span := none
    hasLogCounter := true
    hasDurationHist := true
    fields := []
    attrs := []
    err := none
    name := name
    start := now }

/-- Child (logger.go lines 215 to 226): starts a new span immediately and
copies ctx, logger, tracer, meter, exporter and a fresh start time, but the
struct literal omits logCounter, durationHist, name, fields, attrs and err,
which therefore take their Go zero values (nil instruments, empty name). -/
def Eotel.child (l : Eotel) (name : String) (now : Nat) : Eotel × List Effect :=
  ({ ctx := l.ctx
     loggerRef := l.loggerRef
     tracerRef := l.tracerRef
     meterRef := l.meterRef
     exporterRef := l.exporterRef
     span := some (newSpan name)
     hasLogCounter := false
     hasDurationHist := false
     fields := []
     attrs := []
     err := none
     name := ""
     start := now },
   [.spanStartCall name])

/-- WithField (logger.go lines 168 to 172): appends one zap field with the
native value and one string span attribute with the stringified value. -/
def Eotel.withField (l : Eotel) (key : String) (value : GoVal) : Eotel :=
  { l with
    fields := l.fields ++ [⟨key, value⟩]
    attrs := l.attrs ++ [⟨key, .str value.format⟩] }

/-- WithFields (logger.go lines 174 to 179): applies WithField for each pair
in map iteration order; the iteration order is the order of the modelled
list. -/
def Eotel.withFields (l : Eotel) (m : List (String × GoVal)) : Eotel :=
  m.foldl (fun acc kv => acc.withField kv.1 kv.2) l

/-- WithError (logger.go lines 181 to 189): for a non-nil error records it,
appends the zap error field and the string error attribute, and forwards the
error to the Sentry collaborator; a nil error changes nothing. -/
def Eotel.withError (l : Eotel) (e : Option String) : Eotel × List Effect :=
  match e with
  | none => (l, [])
  | some msg =>
    ({ l with
       err := some msg
       fields := l.fields ++ [⟨"error", .errv msg⟩]
       attrs := l.attrs ++ [⟨"error", .str msg⟩] },
     [.sentryCapture msg])

/-- startSpanIfNeeded (logger.go lines 248 to 252): starts a span named after
the logger only when none exists; also returns the span the emission will
read. -/
def Eotel.startSpanIfNeeded (l : Eotel) : Eotel × SpanData × List Effect :=
  match l.span with
  | some s => (l, s, [])
  | none =>
    let s := newSpan l.name
    ({ l with span := some s }, s, [.spanStartCall l.name])

/-- Character comparison by codepoint. -/
def charLtB (a b : Char) : Bool := Nat.blt a.toNat b.toNat

/-- Lexicographic comparison of character lists.  Go compares strings
byte-wise; UTF-8 byte order coincides with codepoint order, so the
character-wise comparison is the same relation. -/
def charListLtB : List Char → List Char → Bool
  | _, [] => false
  | [], _ :: _ => true
  | a :: as, b :: bs =>
    if charLtB a b then true
    else if charLtB b a then false
    else charListLtB as bs

/-- The Go string less-than. -/
def strLtB (a b : String) : Bool := charListLtB a.data b.data

/-- The comparison sort.SliceStable is given in endSpan: key order under the
Go string less-than. -/
def attrKeyLt (a b : Attr) : Bool :=
  strLtB a.key b.key

/-- Insert one attribute into an already processed list, keeping it before
the first element whose key is not below its own; together with sortAttrs
this is the stable sort by key that sort.SliceStable performs. -/
def insertAttr (a : Attr) : List Attr → List Attr
  | [] => [a]
  | b :: rest => if attrKeyLt b a then b :: insertAttr a rest else a :: b :: rest

/-- Stable sort of the attribute slice by key (sort.SliceStable in endSpan,
logger.go lines 261 to 263): keys become non-decreasing and entries with
equal keys keep their original relative order, which is the unique stable
ordering SliceStable produces. -/
def sortAttrs : List Attr → List Attr
  | [] => []
  | a :: rest => insertAttr a (sortAttrs rest)

/-- The three attributes endSpan appends after the caller attributes
(logger.go lines 256 to 260). -/
def stdEndAttrs (msg level : String) (durationMs : Nat) : List Attr :=
  [⟨"log.message", .str msg⟩, ⟨"log.level", .str level⟩,
   ⟨"duration_ms", .floatMs durationMs⟩]

/-- endSpan (logger.go lines 254 to 275): appends message, level and duration
attributes, stably sorts the attribute slice in place, submits attributes,
any recorded error and End to the span when present, then calls Add on the
log counter and Record on the duration histogram.  A nil instrument
interface makes the corresponding Go method call panic, which aborts the
remaining statements and propagates to the caller. -/
def Eotel.endSpan (l : Eotel) (msg level : String) (durationMs : Nat) :
    Eotel × List Effect × Outcome :=
  let sorted := sortAttrs (l.attrs ++ stdEndAttrs msg level durationMs)
  let spanRes : Option SpanData × List Effect :=
    match l.span with
    | none => (none, [])
    | some s =>
      let r1 := s.setAttributes sorted
      let r2 := match l.err with
        | some e => r1.1.recordErrorCall e
        | none => (r1.1, [])
      let r3 := r2.1.endCall
      (some r3.1, r1.2 ++ r2.2 ++ r3.2)
  let l1 := { l with attrs := sorted, span := spanRes.1 }
  if l.hasLogCounter then
    if l.hasDurationHist then
      (l1, spanRes.2 ++ [.counterAdd level, .histRecord level durationMs], .ok)
    else
      (l1, spanRes.2 ++ [.counterAdd level], .panicked "nil Float64Histogram")
  else
    (l1, spanRes.2, .panicked "nil Int64Counter")

/-- The five fixed fields the log method places before the caller fields
(logger.go lines 140 to 146). -/
def stdFields (cfg : Config) (lv : Level) (traceID spanID : String) : List ZapField :=
  [⟨"trace_id", .str traceID⟩, ⟨"span_id", .str spanID⟩,
   ⟨"job", .str cfg.jobName⟩, ⟨"service", .str cfg.serviceName⟩,
   ⟨"level", .str lv.toStr⟩]

/-- The zap backend write the switch in log performs.  Per the documented
zap contract, Fatal writes the entry and then terminates the process with
exit code one even when the level is disabled or the core is a no-op; the
other severities return control to the caller. -/
def zapWrite (lv : Level) (msg : String) (fields : List ZapField) :
    List Effect × Outcome :=
  match lv with
  | .fatal => ([.logWrite "fatal" msg fields, .procExit 1], .exited 1)
  | _ => ([.logWrite lv.toStr msg fields], .ok)

/-- log (logger.go lines 135 to 166): ensure the span exists, read its trace
and span identifiers, build the ordered field list, write to the zap
backend, enqueue to Loki when enabled, then run endSpan.  When the zap write
terminates the process (fatal), nothing after it executes.  durationMs is
the elapsed-milliseconds value endSpan computes from the wall clock. -/
def Eotel.log (l : Eotel) (cfg : Config) (lv : Level) (msg : String)
    (durationMs : Nat) : Eotel × List Effect × Outcome :=
  let st := l.startSpanIfNeeded
  let l0 := st.1
  let sp := st.2.1
  let startEff := st.2.2
  let fields := stdFields cfg lv sp.traceID sp.spanID ++ l0.fields
  let w := zapWrite lv msg fields
  match w.2 with
  | .exited n => (l0, startEff ++ w.1, .exited n)
  | _ =>
    let sendEff := if cfg.enableLoki then
        [.lokiEnqueue lv.toStr msg sp.traceID sp.spanID]
      else []
    let e := l0.endSpan msg lv.toStr durationMs
    (e.1, startEff ++ w.1 ++ sendEff ++ e.2.1, e.2.2)

/-- Info (logger.go line 123). -/
def Eotel.info (l : Eotel) (cfg : Config) (msg : String) (d : Nat) :
    Eotel × List Effect × Outcome :=
  l.log cfg .info msg d

/-- Error (logger.go line 124). -/
def Eotel.errorE (l : Eotel) (cfg : Config) (msg : String) (d : Nat) :
    Eotel × List Effect × Outcome :=
  l.log cfg .error msg d

/-- Debug (logger.go line 125). -/
def Eotel.debug (l : Eotel) (cfg : Config) (msg : String) (d : Nat) :
    Eotel × List Effect × Outcome :=
  l.log cfg .debug msg d

/-- Warn (logger.go line 126). -/
def Eotel.warn (l : Eotel) (cfg : Config) (msg : String) (d : Nat) :
    Eotel × List Effect × Outcome :=
  l.log cfg .warn msg d

/-- Fatal (logger.go lines 127 to 133): calls log at fatal severity and then,
only if control returns, ends the span and calls os.Exit.  Those trailing
statements are kept faithfully even though the fatal zap write already
terminates the process. -/
def Eotel.fatal (l : Eotel) (cfg : Config) (msg : String) (d : Nat) :
    Eotel × List Effect × Outcome :=
  let r := l.log cfg .fatal msg d
  match r.2.2 with
  | .ok =>
    let sres : Option SpanData × List Effect :=
      match r.1.span with
      | some s => let e := s.endCall; (some e.1, e.2)
      | none => (none, [])
    ({ r.1 with span := sres.1 }, r.2.1 ++ sres.2 ++ [.procExit 1], .exited 1)
  | o => (r.1, r.2.1, o)

/-- A Go context restricted to the single unexported key the package uses:
an opaque identity plus the value stored under loggerCtxKey after chain
lookup.  The key is unexported and Inject is its only writer, and the
package has exactly one Logger implementation, so stored values are Eotel
loggers. -/
structure Context where
  id : Nat
  stored : Option Eotel
deriving DecidableEq

/-- Inject (logger.go lines 85 to 87): context.WithValue under the private
key. -/
def inject (ctx : Context) (lg : Eotel) : Context :=
  { id := ctx.id, stored := some lg }

/-- FromContext (logger.go lines 89 to 96): return the stored logger when
the value is present (the type assertion to the package logger always
succeeds for values Inject stored), otherwise construct a fresh default
logger with New. -/
def fromContext (ctx : Context) (name : String) (now : Nat) : Eotel :=
  match ctx.stored with
  | some lg => lg
  | none => newEotel ctx.id now name

/-- The body of the closure RecoverPanic returns (logger.go lines 108 to
120), as it would run with a recovered panic value: build the synthetic
error, resolve a logger from the request context (FromGin; the nil fallback
is unreachable because FromContext is total), attach the error, emit at
error severity, abort the request with status 500.  With no panic in flight
recover yields nil and the closure does nothing. -/
def recoverPanicClosure (guardLogger : Eotel) (reqCtx : Context) (cfg : Config)
    (now d : Nat) (panicInFlight : Option String) : List Effect × Option String :=
  match panicInFlight with
  | none => ([], none)
  | some recVal =>
    let errMsg := "panic: " ++ recVal
    let lg := fromContext reqCtx "panic" now
    let we := lg.withError (some errMsg)
    let em := we.1.log cfg .error "unhandled panic" d
    (we.2 ++ em.2.1 ++ [.abortWithStatus 500], none)

/-- The two shapes a Go defer statement over RecoverPanic can take: deferring
the call RecoverPanic(c) itself, which at scope exit merely constructs and
discards the returned closure, or deferring the returned closure so that it
runs (and its recover call is active) at scope exit. -/
inductive DeferredForm where
  | constructorOnly
  | closureInvoked
deriving DecidableEq

/-- Middleware line 28 reads: defer logger.RecoverPanic(c) with no trailing
call, so the deferred call is RecoverPanic(c) itself and the returned
closure is discarded without being invoked. -/
def middlewareDeferredForm : DeferredForm := .constructorOnly

/-- Run the deferred guard at scope exit.  In the constructor-only form
nothing is recovered, no effect is produced and a panic in flight keeps
propagating; in the invoked form the closure body runs. -/
def runDeferredGuard (form : DeferredForm) (guardLogger : Eotel) (reqCtx : Context)
    (cfg : Config) (now d : Nat) (panicInFlight : Option String) :
    List Effect × Option String :=
  match form with
  | .constructorOnly => ([], panicInFlight)
  | .closureInvoked =>
    recoverPanicClosure guardLogger reqCtx cfg now d panicInFlight

/-- Effect classifiers used by the claims. -/
def isLogWrite : Effect → Bool
  | .logWrite _ _ _ => true
  | _ => false

/-- Classifier for Loki enqueues (defaultExporter.Send invocations). -/
def isLokiEnqueue : Effect → Bool
  | .lokiEnqueue _ _ _ _ => true
  | _ => false

/-- Classifier for log-counter increments. -/
def isCounterAdd : Effect → Bool
  | .counterAdd _ => true
  | _ => false

/-- Classifier for span terminations reaching the tracing backend. -/
def isSpanEndCall : Effect → Bool
  | .spanEndCall => true
  | _ => false

/-- The subtrace of structured-log writes, export enqueues and count
increments, in program order. -/
def keyEffects (t : List Effect) : List Effect :=
  t.filter fun e => isLogWrite e || isLokiEnqueue e || isCounterAdd e

/-- The structured-log writes of a trace with their payloads. -/
def logWrites (t : List Effect) : List (String × String × List ZapField) :=
  t.filterMap fun e =>
    match e with
    | .logWrite lv m fs => some (lv, m, fs)
    | _ => none

/-- The attribute snapshots submitted to the span by SetAttributes. -/
def setAttrPayloads (t : List Effect) : List (List Attr) :=
  t.filterMap fun e =>
    match e with
    | .spanSetAttrs as => some as
    | _ => none

/-- Number of span terminations reaching the tracing backend. -/
def countEnds (t : List Effect) : Nat := t.countP isSpanEndCall

/-- Number of export-queue enqueues. -/
def countSends (t : List Effect) : Nat := t.countP isLokiEnqueue

/-- Number of log-counter increments. -/
def countAdds (t : List Effect) : Nat := t.countP isCounterAdd

/-- Key order used to state sortedness of the emission snapshot: the second
key is not below the first, mirroring the SliceStable comparison. -/
def attrKeyLe (a b : Attr) : Prop := strLtB b.key a.key = false

/-- Caller attributes produced by a sequence of WithField calls. -/
def callerAttrs (calls : List (String × GoVal)) : List Attr :=
  calls.map fun p => ⟨p.1, .str p.2.format⟩

/-- A concrete configuration with export enabled, for concrete runs. -/
def cfg0 : Config := { serviceName := "svc", jobName := "job", enableLoki := true }

/-- A concrete configuration with export disabled. -/
def cfgNoLoki : Config := { serviceName := "svc", jobName := "job", enableLoki := false }

/-- C1: the claim asserts that an emission call never raises an unhandled
fault back to the caller and that, in particular, the nil metrics
instruments of a logger built by Child are swallowed and the emission
completes.  Evaluating the code at the failing input: Info on a Child-built
logger panics on the nil Int64Counter interface inside endSpan, after the
structured-log write, the enqueue and the span end, and before any counter
increment; the fault propagates to the caller instead of being swallowed. -/
theorem C1_child_emission_panics :
    ((((newEotel 0 0 "p").child "c" 1).1).info cfg0 "hello" 2).2.2
      = Outcome.panicked "nil Int64Counter"
    ∧ countAdds ((((newEotel 0 0 "p").child "c" 1).1).info cfg0 "hello" 2).2.1 = 0 := by
  decide

/-- C5: the claim asserts that Fatal completes the structured-log write, the
span end and the metrics recording and only then terminates the process.
Evaluating the code at the failing input Fatal on a fresh logger: the zap
fatal write terminates the process immediately after the write, so the
trace contains the write followed directly by the exit, with no span
termination, no counter increment and no histogram record. -/
theorem C5_fatal_exits_before_span_and_metrics :
    ((newEotel 0 0 "n").fatal cfg0 "shutdown" 3).2.1
      = [.spanStartCall "n",
         .logWrite "fatal" "shutdown" (stdFields cfg0 .fatal "trace-n" "span-n"),
         .procExit 1]
    ∧ ((newEotel 0 0 "n").fatal cfg0 "shutdown" 3).2.2 = Outcome.exited 1
    ∧ countEnds ((newEotel 0 0 "n").fatal cfg0 "shutdown" 3).2.1 = 0
    ∧ countAdds ((newEotel 0 0 "n").fatal cfg0 "shutdown" 3).2.1 = 0 := by
  decide

/-- C6: the claim asserts that the guard installed by the request middleware
converts an in-flight panic into exactly one error emission plus a 500
abort and never propagates the panic.  Evaluating the code at the failing
input: the middleware defers RecoverPanic(c) itself, so at scope exit only
the constructor runs, the returned closure is discarded, no effect is
produced and the panic keeps propagating; the closure body itself, had it
been invoked, would have produced exactly one error write and the 500
abort and consumed the panic. -/
theorem C6_installed_guard_does_not_recover :
    runDeferredGuard middlewareDeferredForm (newEotel 0 0 "g")
        ⟨0, some (newEotel 0 0 "g")⟩ cfg0 1 2 (some "boom")
      = ([], some "boom")
    ∧ (runDeferredGuard .closureInvoked (newEotel 0 0 "g")
        ⟨0, some (newEotel 0 0 "g")⟩ cfg0 1 2 (some "boom")).2 = none
    ∧ (logWrites (runDeferredGuard .closureInvoked (newEotel 0 0 "g")
        ⟨0, some (newEotel 0 0 "g")⟩ cfg0 1 2 (some "boom")).1).length = 1
    ∧ Effect.abortWithStatus 500 ∈ (runDeferredGuard .closureInvoked (newEotel 0 0 "g")
        ⟨0, some (newEotel 0 0 "g")⟩ cfg0 1 2 (some "boom")).1
    ∧ runDeferredGuard middlewareDeferredForm (newEotel 0 0 "g")
        ⟨0, some (newEotel 0 0 "g")⟩ cfg0 1 2 none = ([], none) := by
  decide

/-- C2 counterexample: two WithField calls with the same key on a fresh
logger; the sorted span-attribute snapshot attached at emission time
contains the key twice (both values, insertion order), so it does not
contain each key exactly once as the claim states. -/
theorem C2_counterexample :
    setAttrPayloads ((((newEotel 0 0 "n").withField "k" (.str "1")).withField "k"
          (.str "2")).log cfg0 .info "m" 7).2.1
      = [[⟨"duration_ms", .floatMs 7⟩, ⟨"k", .str "1"⟩, ⟨"k", .str "2"⟩,
          ⟨"log.level", .str "info"⟩, ⟨"log.message", .str "m"⟩]]
    ∧ ¬ (([(⟨"duration_ms", .floatMs 7⟩ : Attr), ⟨"k", .str "1"⟩, ⟨"k", .str "2"⟩,
          ⟨"log.level", .str "info"⟩, ⟨"log.message", .str "m"⟩].countP
            fun x => x.key == "k") = 1) := by
  decide

/-- C3 counterexample: on an info emission with export enabled the trace
contains exactly one count increment and one enqueue, but the enqueue comes
first, refuting the claimed relative order (count increment before
enqueue); and on a fatal emission no count increment occurs at all because
the process terminates during the structured-log write. -/
theorem C3_counterexample :
    countAdds (((newEotel 0 0 "n").log cfg0 .info "m" 5).2.1) = 1
    ∧ countSends (((newEotel 0 0 "n").log cfg0 .info "m" 5).2.1) = 1
    ∧ ¬ ((((newEotel 0 0 "n").log cfg0 .info "m" 5).2.1).findIdx isCounterAdd
        < (((newEotel 0 0 "n").log cfg0 .info "m" 5).2.1).findIdx isLokiEnqueue)
    ∧ countAdds (((newEotel 0 0 "n").log cfg0 .fatal "m" 5).2.1) = 0 := by
  decide

/-- C9: resolving a logger from a context returns the logger previously
stored by Inject when one is present under the private key, and otherwise
constructs a fresh default logger with New; the function is total, so it
never yields an unusable reference. -/
theorem C9_resolve_returns_stored_or_fresh :
    (∀ (ctx : Context) (lg : Eotel) (name : String) (now : Nat),
        fromContext (inject ctx lg) name now = lg)
    ∧ (∀ (id now : Nat) (name : String),
        fromContext ⟨id, none⟩ name now = newEotel id now name) := by
  constructor
  · intro ctx lg name now
    rfl
  · intro id now name
    rfl

/-- Characterization of the character order as a Nat comparison. -/
lemma charLtB_iff {a b : Char} : charLtB a b = true ↔ a.toNat < b.toNat := by
  simp [charLtB, Nat.blt_eq]

/-- Negative characterization of the character order. -/
lemma charLtB_false_iff {a b : Char} : charLtB a b = false ↔ ¬ a.toNat < b.toNat := by
  rw [← charLtB_iff]
  cases charLtB a b <;> simp

/-- Nothing is below the empty character list. -/
lemma charListLtB_nil_right (l : List Char) : charListLtB l [] = false := by
  cases l <;> rfl

/-- The lexicographic order is asymmetric. -/
lemma charListLtB_asymm : ∀ {a b : List Char},
    charListLtB a b = true → charListLtB b a = false
  | _, [], h => by simp [charListLtB_nil_right] at h
  | [], _ :: _, _ => by simp [charListLtB_nil_right]
  | a :: as, b :: bs, h => by
    simp only [charListLtB] at h ⊢
    rcases hab : charLtB a b with _ | _ <;> rcases hba : charLtB b a with _ | _ <;>
      simp [hab, hba] at h ⊢
    · exact charListLtB_asymm h
    · rw [charLtB_iff] at hab hba
      omega

/-- The lexicographic order is irreflexive. -/
lemma charListLtB_irrefl (a : List Char) : charListLtB a a = false := by
  cases h : charListLtB a a
  · rfl
  · have h2 := charListLtB_asymm h
    rw [h2] at h
    exact h.symm

/-- Transitivity of the complement of the lexicographic order. -/
lemma charListLtB_neg_trans : ∀ {a b c : List Char},
    charListLtB b a = false → charListLtB c b = false → charListLtB c a = false
  | [], _, c, _, _ => by simp [charListLtB_nil_right]
  | _ :: _, [], _, h1, _ => by simp [charListLtB] at h1
  | _ :: _, _ :: _, [], _, h2 => by simp [charListLtB] at h2
  | x :: xs, b :: bs, c :: cs, h1, h2 => by
    simp only [charListLtB] at h1 h2 ⊢
    rcases hbx : charLtB b x with _ | _
    · rcases hcb : charLtB c b with _ | _
      · rcases hxb : charLtB x b with _ | _
        · rcases hbc : charLtB b c with _ | _
          · have hxc : charLtB x c = false := by
              rw [charLtB_false_iff] at hbx hcb hxb hbc ⊢
              omega
            have hcx : charLtB c x = false := by
              rw [charLtB_false_iff] at hbx hcb hxb hbc ⊢
              omega
            simp [hbx, hcb, hxb, hbc] at h1 h2
            simp [hcx, hxc]
            exact charListLtB_neg_trans h1 h2
          · have hxc : charLtB x c = true := by
              rw [charLtB_false_iff] at hbx hxb
              rw [charLtB_iff] at hbc ⊢
              omega
            have hcx : charLtB c x = false := by
              rw [charLtB_false_iff] at hbx hcb ⊢
              omega
            simp [hcx, hxc]
        · have hxc : charLtB x c = true := by
            rw [charLtB_iff] at hxb ⊢
            rw [charLtB_false_iff] at hcb
            omega
          have hcx : charLtB c x = false := by
            rw [charLtB_false_iff] at hbx hcb ⊢
            omega
          simp [hcx, hxc]
      · simp [hcb] at h2
    · simp [hbx] at h1

/-- Asymmetry for the Go string order. -/
lemma strLtB_asymm {a b : String} (h : strLtB a b = true) : strLtB b a = false :=
  charListLtB_asymm h

/-- Irreflexivity for the Go string order. -/
lemma strLtB_irrefl (a : String) : strLtB a a = false :=
  charListLtB_irrefl a.data

/-- Transitivity of the complement of the Go string order. -/
lemma strLtB_neg_trans {a b c : String} (h1 : strLtB b a = false)
    (h2 : strLtB c b = false) : strLtB c a = false :=
  charListLtB_neg_trans h1 h2

/-- Membership in an insertion. -/
lemma mem_insertAttr {a x : Attr} : ∀ {l : List Attr}, x ∈ insertAttr a l → x = a ∨ x ∈ l
  | [], h => by simpa [insertAttr] using h
  | b :: rest, h => by
    simp only [insertAttr] at h
    cases hba : attrKeyLt b a <;> simp [hba] at h
    · rcases h with h | h
      · exact Or.inl h
      · exact Or.inr (by simp [h])
    · rcases h with h | h
      · exact Or.inr (by simp [h])
      · rcases mem_insertAttr h with h | h
        · exact Or.inl h
        · exact Or.inr (by simp [h])

/-- Insertion preserves sortedness by key. -/
lemma pairwise_insertAttr {a : Attr} : ∀ {l : List Attr},
    l.Pairwise attrKeyLe → (insertAttr a l).Pairwise attrKeyLe
  | [], _ => by simp [insertAttr]
  | b :: rest, h => by
    rcases List.pairwise_cons.mp h with ⟨hb, hrest⟩
    simp only [insertAttr]
    cases hba : attrKeyLt b a <;> simp only [hba, Bool.false_eq_true, if_false, if_true]
    · refine List.pairwise_cons.mpr ⟨?_, h⟩
      intro x hx
      rcases List.mem_cons.mp hx with rfl | hx
      · exact hba
      · exact strLtB_neg_trans hba (hb x hx)
    · refine List.pairwise_cons.mpr ⟨?_, pairwise_insertAttr hrest⟩
      intro x hx
      rcases mem_insertAttr hx with rfl | hx
      · exact strLtB_asymm hba
      · exact hb x hx

/-- The emission-time snapshot is sorted: keys are non-decreasing. -/
lemma pairwise_sortAttrs : ∀ (l : List Attr), (sortAttrs l).Pairwise attrKeyLe
  | [] => List.Pairwise.nil
  | a :: rest => pairwise_insertAttr (pairwise_sortAttrs rest)

/-- Insertion preserves the subsequence of entries with a fixed key: the
inserted element goes in front of the equal-keyed ones because it stems from
an earlier position. -/
lemma filter_insertAttr (k : String) (a : Attr) : ∀ (l : List Attr),
    (insertAttr a l).filter (fun x => x.key == k) =
      if a.key == k then a :: l.filter (fun x => x.key == k)
      else l.filter (fun x => x.key == k)
  | [] => by
    cases hak : (a.key == k) <;> simp [insertAttr, List.filter_cons, hak]
  | b :: rest => by
    simp only [insertAttr]
    cases hba : attrKeyLt b a <;> simp only [hba, Bool.false_eq_true, if_false, if_true]
    · cases hak : (a.key == k) <;> simp [List.filter_cons, hak]
    · cases hak : (a.key == k)
      · cases hbk : (b.key == k) <;>
          simp [List.filter_cons, hak, hbk, filter_insertAttr k a rest]
      · cases hbk : (b.key == k)
        · simp [List.filter_cons, hak, hbk, filter_insertAttr k a rest]
        · exfalso
          have hb : b.key = k := by simpa using hbk
          have ha : a.key = k := by simpa using hak
          have hirr : attrKeyLt b a = false := by
            unfold attrKeyLt
            rw [hb, ha]
            exact strLtB_irrefl k
          rw [hirr] at hba
          exact Bool.false_ne_true hba

/-- Stability: the stable sort keeps, for each key, exactly the entries with
that key in their original relative order. -/
lemma filter_sortAttrs (k : String) : ∀ (l : List Attr),
    (sortAttrs l).filter (fun x => x.key == k) = l.filter (fun x => x.key == k)
  | [] => rfl
  | a :: rest => by
    simp only [sortAttrs]
    rw [filter_insertAttr, filter_sortAttrs k rest]
    cases hak : (a.key == k) <;> simp [hak, List.filter_cons]

/-- When the span is present, startSpanIfNeeded changes nothing and emits
nothing. -/
lemma startSpanIfNeeded_some {l : Eotel} {s : SpanData} (h : l.span = some s) :
    l.startSpanIfNeeded = (l, s, []) := by
  simp [Eotel.startSpanIfNeeded, h]

/-- When the span is absent, startSpanIfNeeded starts one named after the
logger. -/
lemma startSpanIfNeeded_none {l : Eotel} (h : l.span = none) :
    l.startSpanIfNeeded =
      ({ l with span := some (newSpan l.name) }, newSpan l.name,
       [.spanStartCall l.name]) := by
  simp [Eotel.startSpanIfNeeded, h]

/-- After startSpanIfNeeded the logger holds exactly the span it returned. -/
lemma startSpanIfNeeded_fst_span (l : Eotel) :
    l.startSpanIfNeeded.1.span = some l.startSpanIfNeeded.2.1 := by
  rcases h : l.span with _ | s
  · simp [startSpanIfNeeded_none h]
  · simp [startSpanIfNeeded_some h, h]

/-- startSpanIfNeeded leaves the field list unchanged. -/
lemma startSpanIfNeeded_fst_fields (l : Eotel) :
    l.startSpanIfNeeded.1.fields = l.fields := by
  rcases h : l.span with _ | s
  · simp [startSpanIfNeeded_none h]
  · simp [startSpanIfNeeded_some h]

/-- startSpanIfNeeded leaves the attribute buffer unchanged. -/
lemma startSpanIfNeeded_fst_attrs (l : Eotel) :
    l.startSpanIfNeeded.1.attrs = l.attrs := by
  rcases h : l.span with _ | s
  · simp [startSpanIfNeeded_none h]
  · simp [startSpanIfNeeded_some h]

/-- startSpanIfNeeded leaves the recorded error unchanged. -/
lemma startSpanIfNeeded_fst_err (l : Eotel) :
    l.startSpanIfNeeded.1.err = l.err := by
  rcases h : l.span with _ | s
  · simp [startSpanIfNeeded_none h]
  · simp [startSpanIfNeeded_some h]

/-- startSpanIfNeeded leaves the counter handle unchanged. -/
lemma startSpanIfNeeded_fst_hasLogCounter (l : Eotel) :
    l.startSpanIfNeeded.1.hasLogCounter = l.hasLogCounter := by
  rcases h : l.span with _ | s
  · simp [startSpanIfNeeded_none h]
  · simp [startSpanIfNeeded_some h]

/-- startSpanIfNeeded leaves the histogram handle unchanged. -/
lemma startSpanIfNeeded_fst_hasDurationHist (l : Eotel) :
    l.startSpanIfNeeded.1.hasDurationHist = l.hasDurationHist := by
  rcases h : l.span with _ | s
  · simp [startSpanIfNeeded_none h]
  · simp [startSpanIfNeeded_some h]

/-- The span-start effect contains no write, enqueue, increment, attribute
submission or termination. -/
lemma startSpanIfNeeded_startEff (l : Eotel) :
    countEnds l.startSpanIfNeeded.2.2 = 0
    ∧ countSends l.startSpanIfNeeded.2.2 = 0
    ∧ keyEffects l.startSpanIfNeeded.2.2 = []
    ∧ logWrites l.startSpanIfNeeded.2.2 = []
    ∧ setAttrPayloads l.startSpanIfNeeded.2.2 = [] := by
  rcases h : l.span with _ | s
  · simp [startSpanIfNeeded_none h, countEnds, countSends, keyEffects, logWrites,
      setAttrPayloads, isSpanEndCall, isLokiEnqueue, isLogWrite, isCounterAdd]
  · simp [startSpanIfNeeded_some h, countEnds, countSends, keyEffects, logWrites,
      setAttrPayloads]

/-- Decomposition of an emission at a non-fatal severity into its four effect
blocks: span start, structured-log write, conditional enqueue, span
finalization with metrics. -/
lemma log_nonfatal (l : Eotel) (cfg : Config) (lv : Level) (msg : String) (d : Nat)
    (hf : lv ≠ .fatal) :
    l.log cfg lv msg d =
      ((l.startSpanIfNeeded.1.endSpan msg lv.toStr d).1,
       l.startSpanIfNeeded.2.2
         ++ [.logWrite lv.toStr msg
              (stdFields cfg lv l.startSpanIfNeeded.2.1.traceID
                  l.startSpanIfNeeded.2.1.spanID
                ++ l.startSpanIfNeeded.1.fields)]
         ++ (if cfg.enableLoki then
              [.lokiEnqueue lv.toStr msg l.startSpanIfNeeded.2.1.traceID
                  l.startSpanIfNeeded.2.1.spanID]
            else [])
         ++ (l.startSpanIfNeeded.1.endSpan msg lv.toStr d).2.1,
       (l.startSpanIfNeeded.1.endSpan msg lv.toStr d).2.2) := by
  cases lv
  case fatal => exact absurd rfl hf
  all_goals rfl

/-- Decomposition of an emission at fatal severity: the zap write terminates
the process, so the trace stops at the exit and the state keeps the span
the write read. -/
lemma log_fatal_eq (l : Eotel) (cfg : Config) (msg : String) (d : Nat) :
    l.log cfg .fatal msg d =
      (l.startSpanIfNeeded.1,
       l.startSpanIfNeeded.2.2
         ++ [.logWrite "fatal" msg
              (stdFields cfg .fatal l.startSpanIfNeeded.2.1.traceID
                  l.startSpanIfNeeded.2.1.spanID
                ++ l.startSpanIfNeeded.1.fields),
             .procExit 1],
       .exited 1) := rfl

/-- The Fatal method reduces to its fatal emission, because the zap write
never returns control and the trailing span end and exit are dead code. -/
lemma fatal_eq (l : Eotel) (cfg : Config) (msg : String) (d : Nat) :
    l.fatal cfg msg d =
      (l.startSpanIfNeeded.1,
       l.startSpanIfNeeded.2.2
         ++ [.logWrite "fatal" msg
              (stdFields cfg .fatal l.startSpanIfNeeded.2.1.traceID
                  l.startSpanIfNeeded.2.1.spanID
                ++ l.startSpanIfNeeded.1.fields),
             .procExit 1],
       .exited 1) := by
  simp [Eotel.fatal, log_fatal_eq]

/-- keyEffects distributes over concatenation. -/
lemma keyEffects_append (s t : List Effect) :
    keyEffects (s ++ t) = keyEffects s ++ keyEffects t := by
  simp [keyEffects]

/-- countSends distributes over concatenation. -/
lemma countSends_append (s t : List Effect) :
    countSends (s ++ t) = countSends s + countSends t := by
  simp [countSends, List.countP_append]

/-- countEnds distributes over concatenation. -/
lemma countEnds_append (s t : List Effect) :
    countEnds (s ++ t) = countEnds s + countEnds t := by
  simp [countEnds, List.countP_append]

/-- logWrites distributes over concatenation. -/
lemma logWrites_append (s t : List Effect) :
    logWrites (s ++ t) = logWrites s ++ logWrites t := by
  simp [logWrites]

/-- setAttrPayloads distributes over concatenation. -/
lemma setAttrPayloads_append (s t : List Effect) :
    setAttrPayloads (s ++ t) = setAttrPayloads s ++ setAttrPayloads t := by
  simp [setAttrPayloads]

/-- The span-finalization block contains exactly one counter increment when
the counter instrument is present, regardless of span state, recorded error
and histogram presence. -/
lemma keyEffects_endSpan (l : Eotel) (msg lvs : String) (d : Nat)
    (hc : l.hasLogCounter = true) :
    keyEffects (l.endSpan msg lvs d).2.1 = [.counterAdd lvs] := by
  unfold Eotel.endSpan
  rcases hs : l.span with _ | s
  · rcases hh : l.hasDurationHist <;>
      simp [hs, hc, hh, keyEffects, isLogWrite, isLokiEnqueue, isCounterAdd]
  · rcases he : s.ended <;> rcases herr : l.err with _ | e <;>
      rcases hh : l.hasDurationHist <;>
      simp [hs, hc, hh, he, herr, keyEffects, isLogWrite, isLokiEnqueue, isCounterAdd,
        SpanData.setAttributes, SpanData.recordErrorCall, SpanData.endCall]

/-- The span-finalization block never enqueues to the export channel. -/
lemma countSends_endSpan (l : Eotel) (msg lvs : String) (d : Nat) :
    countSends (l.endSpan msg lvs d).2.1 = 0 := by
  unfold Eotel.endSpan
  rcases hs : l.span with _ | s
  · rcases hc : l.hasLogCounter <;> rcases hh : l.hasDurationHist <;>
      simp [hs, hc, hh, countSends, isLokiEnqueue]
  · rcases he : s.ended <;> rcases herr : l.err with _ | e <;>
      rcases hc : l.hasLogCounter <;> rcases hh : l.hasDurationHist <;>
      simp [hs, hc, hh, he, herr, countSends, isLokiEnqueue,
        SpanData.setAttributes, SpanData.recordErrorCall, SpanData.endCall]

/-- The span-finalization block never writes to the structured-log backend. -/
lemma logWrites_endSpan (l : Eotel) (msg lvs : String) (d : Nat) :
    logWrites (l.endSpan msg lvs d).2.1 = [] := by
  unfold Eotel.endSpan
  rcases hs : l.span with _ | s
  · rcases hc : l.hasLogCounter <;> rcases hh : l.hasDurationHist <;>
      simp [hs, hc, hh, logWrites]
  · rcases he : s.ended <;> rcases herr : l.err with _ | e <;>
      rcases hc : l.hasLogCounter <;> rcases hh : l.hasDurationHist <;>
      simp [hs, hc, hh, he, herr, logWrites,
        SpanData.setAttributes, SpanData.recordErrorCall, SpanData.endCall]

/-- Finalizing an active span submits exactly one termination call. -/
lemma countEnds_endSpan_active (l : Eotel) (msg lvs : String) (d : Nat)
    {s : SpanData} (hs : l.span = some s) (he : s.ended = false) :
    countEnds (l.endSpan msg lvs d).2.1 = 1 := by
  unfold Eotel.endSpan
  rcases herr : l.err with _ | e <;>
    rcases hc : l.hasLogCounter <;> rcases hh : l.hasDurationHist <;>
    simp [hs, hc, hh, he, herr, countEnds, isSpanEndCall,
      SpanData.setAttributes, SpanData.recordErrorCall, SpanData.endCall]

/-- Finalizing an already ended span submits no termination call. -/
lemma countEnds_endSpan_ended (l : Eotel) (msg lvs : String) (d : Nat)
    {s : SpanData} (hs : l.span = some s) (he : s.ended = true) :
    countEnds (l.endSpan msg lvs d).2.1 = 0 := by
  unfold Eotel.endSpan
  rcases herr : l.err with _ | e <;>
    rcases hc : l.hasLogCounter <;> rcases hh : l.hasDurationHist <;>
    simp [hs, hc, hh, he, herr, countEnds, isSpanEndCall,
      SpanData.setAttributes, SpanData.recordErrorCall, SpanData.endCall]

/-- Finalization submits at most one termination call. -/
lemma countEnds_endSpan_le_one (l : Eotel) (msg lvs : String) (d : Nat) :
    countEnds (l.endSpan msg lvs d).2.1 ≤ 1 := by
  rcases hs : l.span with _ | s
  · unfold Eotel.endSpan
    rcases hc : l.hasLogCounter <;> rcases hh : l.hasDurationHist <;>
      simp [hs, hc, hh, countEnds, isSpanEndCall]
  · rcases he : s.ended
    · simp [countEnds_endSpan_active l msg lvs d hs he]
    · simp [countEnds_endSpan_ended l msg lvs d hs he]

/-- After finalization the span, when present, is marked ended. -/
lemma endSpan_fst_span (l : Eotel) (msg lvs : String) (d : Nat) :
    (l.endSpan msg lvs d).1.span = l.span.map (fun s => { s with ended := true }) := by
  unfold Eotel.endSpan
  rcases hs : l.span with _ | ⟨tid, sid, ed⟩
  · rcases hc : l.hasLogCounter <;> rcases hh : l.hasDurationHist <;>
      simp [hs, hc, hh]
  · rcases ed with _ | _ <;> rcases herr : l.err with _ | e <;>
      rcases hc : l.hasLogCounter <;> rcases hh : l.hasDurationHist <;>
      simp [hs, hc, hh, herr,
        SpanData.setAttributes, SpanData.recordErrorCall, SpanData.endCall]

/-- With both instruments present, finalization returns control normally. -/
lemma endSpan_outcome_ok (l : Eotel) (msg lvs : String) (d : Nat)
    (hc : l.hasLogCounter = true) (hh : l.hasDurationHist = true) :
    (l.endSpan msg lvs d).2.2 = .ok := by
  unfold Eotel.endSpan
  rcases hs : l.span with _ | s <;> simp [hs, hc, hh]

/-- Finalizing an active span attaches exactly the stably sorted snapshot of
the buffered attributes plus the message, level and duration entries. -/
lemma setAttrPayloads_endSpan_active (l : Eotel) (msg lvs : String) (d : Nat)
    {s : SpanData} (hs : l.span = some s) (he : s.ended = false) :
    setAttrPayloads (l.endSpan msg lvs d).2.1 =
      [sortAttrs (l.attrs ++ stdEndAttrs msg lvs d)] := by
  unfold Eotel.endSpan
  rcases herr : l.err with _ | e <;>
    rcases hc : l.hasLogCounter <;> rcases hh : l.hasDurationHist <;>
    simp [hs, hc, hh, he, herr, setAttrPayloads,
      SpanData.setAttributes, SpanData.recordErrorCall, SpanData.endCall]

/-- Unfolding one WithFields step. -/
lemma withFields_cons (l : Eotel) (kv : String × GoVal) (rest : List (String × GoVal)) :
    l.withFields (kv :: rest) = (l.withField kv.1 kv.2).withFields rest := rfl

/-- WithFields appends one field and one stringified attribute per pair, in
iteration order, and changes nothing else. -/
lemma withFields_eq : ∀ (calls : List (String × GoVal)) (l : Eotel),
    l.withFields calls =
      { l with fields := l.fields ++ calls.map (fun p => ⟨p.1, p.2⟩),
               attrs := l.attrs ++ callerAttrs calls }
  | [], l => by simp [Eotel.withFields, callerAttrs]
  | kv :: rest, l => by
    rw [withFields_cons, withFields_eq rest]
    simp [Eotel.withField, callerAttrs]

/-- Every emission performs exactly one structured-log write, whose field
list is the five fixed fields followed by the caller fields in insertion
order. -/
lemma logWrites_log (l : Eotel) (cfg : Config) (lv : Level) (msg : String) (d : Nat) :
    logWrites (l.log cfg lv msg d).2.1
      = [(lv.toStr, msg,
          stdFields cfg lv l.startSpanIfNeeded.2.1.traceID
              l.startSpanIfNeeded.2.1.spanID
            ++ l.fields)] := by
  cases hlv : lv == Level.fatal
  case false =>
    have hf : lv ≠ .fatal := by
      intro hv
      rw [hv] at hlv
      simp at hlv
    rw [log_nonfatal l cfg lv msg d hf]
    simp only [logWrites_append]
    rw [(startSpanIfNeeded_startEff l).2.2.2.1, logWrites_endSpan,
      startSpanIfNeeded_fst_fields]
    cases hloki : cfg.enableLoki <;> simp [hloki, logWrites]
  case true =>
    have hv : lv = .fatal := by simpa using hlv
    subst hv
    rw [log_fatal_eq]
    simp only [logWrites_append]
    rw [(startSpanIfNeeded_startEff l).2.2.2.1, startSpanIfNeeded_fst_fields]
    simp [logWrites, Level.toStr]

/-- C2 (amended): for any sequence of WithField calls on one fresh logger,
the span-attribute snapshot attached at emission time (at a non-fatal
severity) is the stable key-sort of one entry per call plus the message,
level and duration entries: its keys are non-decreasing, and for every key
it contains one entry per set for that key, in insertion order, so the
last-set value is the last among them; duplicate keys are not collapsed to
a single entry. -/
theorem C2_snapshot_stable_sort (calls : List (String × GoVal)) (ctx now : Nat)
    (name msg : String) (cfg : Config) (lv : Level) (d : Nat) (k : String)
    (hf : lv ≠ .fatal) :
    setAttrPayloads (((newEotel ctx now name).withFields calls).log cfg lv msg d).2.1
      = [sortAttrs (callerAttrs calls ++ stdEndAttrs msg lv.toStr d)]
    ∧ (sortAttrs (callerAttrs calls ++ stdEndAttrs msg lv.toStr d)).Pairwise attrKeyLe
    ∧ (sortAttrs (callerAttrs calls ++ stdEndAttrs msg lv.toStr d)).filter
          (fun x => x.key == k)
        = (callerAttrs calls ++ stdEndAttrs msg lv.toStr d).filter
            (fun x => x.key == k) := by
  refine ⟨?_, pairwise_sortAttrs _, filter_sortAttrs k _⟩
  have hL := withFields_eq calls (newEotel ctx now name)
  have hspan : ((newEotel ctx now name).withFields calls).span = none := by
    rw [hL]
    simp [newEotel]
  have hattrs : ((newEotel ctx now name).withFields calls).attrs = callerAttrs calls := by
    rw [hL]
    simp [newEotel]
  rw [log_nonfatal _ cfg lv msg d hf]
  simp only [startSpanIfNeeded_none hspan]
  simp only [setAttrPayloads_append]
  rw [setAttrPayloads_endSpan_active _ _ _ _ rfl rfl]
  simp [setAttrPayloads, hattrs]

/-- Witness for C2_snapshot_stable_sort at a concrete input. -/
theorem C2_snapshot_stable_sort_witness :
    Level.info ≠ Level.fatal
    ∧ (setAttrPayloads (((newEotel 0 0 "n").withFields
            [("k", GoVal.str "1")]).log cfg0 .info "m" 7).2.1
        = [sortAttrs (callerAttrs [("k", GoVal.str "1")]
            ++ stdEndAttrs "m" Level.info.toStr 7)]
      ∧ (sortAttrs (callerAttrs [("k", GoVal.str "1")]
            ++ stdEndAttrs "m" Level.info.toStr 7)).Pairwise attrKeyLe
      ∧ (sortAttrs (callerAttrs [("k", GoVal.str "1")]
            ++ stdEndAttrs "m" Level.info.toStr 7)).filter (fun x => x.key == "k")
        = (callerAttrs [("k", GoVal.str "1")]
            ++ stdEndAttrs "m" Level.info.toStr 7).filter (fun x => x.key == "k")) :=
  ⟨by decide,
   C2_snapshot_stable_sort [("k", GoVal.str "1")] 0 0 "n" "m" cfg0 .info 7 "k" (by decide)⟩

/-- C3 (amended): for every logger whose metrics instruments are initialized
(as built by New) and every non-fatal severity, one emission produces
exactly one structured-log write, then, when export is enabled, exactly one
ExportJob enqueue, then exactly one metrics-count increment, in that
relative order (write, enqueue, increment), and the emission returns
normally; at fatal severity the process terminates during the
structured-log write, so no enqueue and no increment occur. -/
theorem C3_emission_effects_order (l : Eotel) (cfg : Config) (lv : Level)
    (msg : String) (d : Nat)
    (hc : l.hasLogCounter = true) (hh : l.hasDurationHist = true)
    (hf : lv ≠ .fatal) :
    ∃ tid sid fs,
      keyEffects (l.log cfg lv msg d).2.1
        = [Effect.logWrite lv.toStr msg fs]
          ++ (if cfg.enableLoki then [Effect.lokiEnqueue lv.toStr msg tid sid] else [])
          ++ [Effect.counterAdd lv.toStr]
      ∧ (l.log cfg lv msg d).2.2 = .ok := by
  refine ⟨l.startSpanIfNeeded.2.1.traceID, l.startSpanIfNeeded.2.1.spanID,
    stdFields cfg lv l.startSpanIfNeeded.2.1.traceID l.startSpanIfNeeded.2.1.spanID
      ++ l.startSpanIfNeeded.1.fields, ?_, ?_⟩
  · rw [log_nonfatal l cfg lv msg d hf]
    simp only [keyEffects_append]
    rw [(startSpanIfNeeded_startEff l).2.2.1]
    rw [keyEffects_endSpan _ _ _ _ (by rw [startSpanIfNeeded_fst_hasLogCounter]; exact hc)]
    cases hloki : cfg.enableLoki <;>
      simp [hloki, keyEffects, isLogWrite, isLokiEnqueue, isCounterAdd]
  · rw [log_nonfatal l cfg lv msg d hf]
    exact endSpan_outcome_ok _ _ _ _
      (by rw [startSpanIfNeeded_fst_hasLogCounter]; exact hc)
      (by rw [startSpanIfNeeded_fst_hasDurationHist]; exact hh)

/-- Witness for C3_emission_effects_order at a concrete input. -/
theorem C3_emission_effects_order_witness :
    (newEotel 0 0 "n").hasLogCounter = true
    ∧ (newEotel 0 0 "n").hasDurationHist = true
    ∧ Level.info ≠ Level.fatal
    ∧ (∃ tid sid fs,
        keyEffects ((newEotel 0 0 "n").log cfg0 .info "m" 5).2.1
          = [Effect.logWrite Level.info.toStr "m" fs]
            ++ (if cfg0.enableLoki then
                [Effect.lokiEnqueue Level.info.toStr "m" tid sid] else [])
            ++ [Effect.counterAdd Level.info.toStr]
        ∧ ((newEotel 0 0 "n").log cfg0 .info "m" 5).2.2 = .ok) :=
  ⟨rfl, rfl, by decide,
   C3_emission_effects_order (newEotel 0 0 "n") cfg0 .info "m" 5 rfl rfl (by decide)⟩

/-- C4: ending the span of one logger twice has the same observable effect
on the tracing backend as ending it once.  After a first (non-fatal)
emission ends the span, a second emission at any severity submits no
further termination call, the combined trace carries exactly as many
termination calls as the first trace alone, the first trace carries at most
one, and a Fatal call after the emission path ended the span submits none
either. -/
theorem C4_span_end_idempotent (l : Eotel) (cfg : Config) (lv1 lv2 : Level)
    (m1 m2 : String) (d1 d2 : Nat) (h1 : lv1 ≠ .fatal) :
    countEnds ((l.log cfg lv1 m1 d1).1.log cfg lv2 m2 d2).2.1 = 0
    ∧ countEnds ((l.log cfg lv1 m1 d1).2.1
        ++ ((l.log cfg lv1 m1 d1).1.log cfg lv2 m2 d2).2.1)
        = countEnds (l.log cfg lv1 m1 d1).2.1
    ∧ countEnds (l.log cfg lv1 m1 d1).2.1 ≤ 1
    ∧ countEnds ((l.log cfg lv1 m1 d1).1.fatal cfg m2 d2).2.1 = 0 := by
  have hspan1 : (l.log cfg lv1 m1 d1).1.span
      = some { l.startSpanIfNeeded.2.1 with ended := true } := by
    rw [log_nonfatal l cfg lv1 m1 d1 h1]
    rw [endSpan_fst_span, startSpanIfNeeded_fst_span]
    rfl
  have hzero : ∀ (lv : Level) (m : String) (dd : Nat),
      countEnds ((l.log cfg lv1 m1 d1).1.log cfg lv m dd).2.1 = 0 := by
    intro lv m dd
    cases hlv : lv == Level.fatal
    case false =>
      have hf : lv ≠ .fatal := by
        intro hv
        rw [hv] at hlv
        simp at hlv
      rw [log_nonfatal _ cfg lv m dd hf]
      simp only [startSpanIfNeeded_some hspan1]
      simp only [countEnds_append]
      rw [countEnds_endSpan_ended _ _ _ _ hspan1 rfl]
      cases hloki : cfg.enableLoki <;>
        simp [hloki, countEnds, isSpanEndCall]
    case true =>
      have hv : lv = .fatal := by simpa using hlv
      subst hv
      rw [log_fatal_eq]
      simp only [startSpanIfNeeded_some hspan1]
      simp [countEnds, isSpanEndCall]
  refine ⟨hzero lv2 m2 d2, ?_, ?_, ?_⟩
  · rw [countEnds_append, hzero lv2 m2 d2]
    omega
  · rw [log_nonfatal l cfg lv1 m1 d1 h1]
    simp only [countEnds_append]
    rw [(startSpanIfNeeded_startEff l).1]
    have hle := countEnds_endSpan_le_one l.startSpanIfNeeded.1 m1 lv1.toStr d1
    have hw : countEnds [Effect.logWrite lv1.toStr m1
        (stdFields cfg lv1 l.startSpanIfNeeded.2.1.traceID
            l.startSpanIfNeeded.2.1.spanID
          ++ l.startSpanIfNeeded.1.fields)] = 0 := by
      simp [countEnds, isSpanEndCall]
    have hsnd : countEnds (if cfg.enableLoki then
        [Effect.lokiEnqueue lv1.toStr m1 l.startSpanIfNeeded.2.1.traceID
            l.startSpanIfNeeded.2.1.spanID]
      else []) = 0 := by
      cases hloki : cfg.enableLoki <;> simp [hloki, countEnds, isSpanEndCall]
    omega
  · rw [fatal_eq]
    simp only [startSpanIfNeeded_some hspan1]
    simp [countEnds, isSpanEndCall]

/-- Witness for C4_span_end_idempotent at a concrete input. -/
theorem C4_span_end_idempotent_witness :
    Level.info ≠ Level.fatal
    ∧ (countEnds (((newEotel 0 0 "n").log cfg0 .info "a" 1).1.log cfg0 .warn "b" 2).2.1 = 0
      ∧ countEnds (((newEotel 0 0 "n").log cfg0 .info "a" 1).2.1
          ++ (((newEotel 0 0 "n").log cfg0 .info "a" 1).1.log cfg0 .warn "b" 2).2.1)
          = countEnds ((newEotel 0 0 "n").log cfg0 .info "a" 1).2.1
      ∧ countEnds ((newEotel 0 0 "n").log cfg0 .info "a" 1).2.1 ≤ 1
      ∧ countEnds (((newEotel 0 0 "n").log cfg0 .info "a" 1).1.fatal cfg0 "c" 3).2.1 = 0) :=
  ⟨by decide,
   C4_span_end_idempotent (newEotel 0 0 "n") cfg0 .info .warn "a" "b" 1 2 (by decide)⟩

/-- C7: for every emission, the field list forwarded to the structured-log
backend is the trace identifier, span identifier, job name, service name
and severity, followed by all caller-set fields in insertion order (the
order of the WithField calls), not sorted. -/
theorem C7_write_field_order :
    (∀ (l : Eotel) (cfg : Config) (lv : Level) (msg : String) (d : Nat),
      ∃ tid sid, logWrites (l.log cfg lv msg d).2.1
        = [(lv.toStr, msg, stdFields cfg lv tid sid ++ l.fields)])
    ∧ (∀ (l : Eotel) (calls : List (String × GoVal)),
        (l.withFields calls).fields = l.fields ++ calls.map (fun p => ⟨p.1, p.2⟩)) := by
  constructor
  · intro l cfg lv msg d
    exact ⟨_, _, logWrites_log l cfg lv msg d⟩
  · intro l calls
    rw [withFields_eq]

/-- C8: with remote export disabled in the configuration, no emission at any
severity on any logger ever invokes the exporter: neither the log method
nor the Fatal wrapper produces a Loki enqueue. -/
theorem C8_no_enqueue_when_export_disabled (l : Eotel) (cfg : Config) (lv : Level)
    (msg : String) (d : Nat) (h : cfg.enableLoki = false) :
    countSends (l.log cfg lv msg d).2.1 = 0
    ∧ countSends (l.fatal cfg msg d).2.1 = 0 := by
  constructor
  · cases hlv : lv == Level.fatal
    case false =>
      have hf : lv ≠ .fatal := by
        intro hv
        rw [hv] at hlv
        simp at hlv
      rw [log_nonfatal l cfg lv msg d hf]
      simp only [countSends_append]
      rw [(startSpanIfNeeded_startEff l).2.1]
      rw [countSends_endSpan]
      simp [h, countSends, isLokiEnqueue]
    case true =>
      have hv : lv = .fatal := by simpa using hlv
      subst hv
      rw [log_fatal_eq]
      simp only [countSends_append]
      rw [(startSpanIfNeeded_startEff l).2.1]
      simp [countSends, isLokiEnqueue]
  · rw [fatal_eq]
    simp only [countSends_append]
    rw [(startSpanIfNeeded_startEff l).2.1]
    simp [countSends, isLokiEnqueue]

/-- Witness for C8_no_enqueue_when_export_disabled at a concrete input. -/
theorem C8_no_enqueue_when_export_disabled_witness :
    cfgNoLoki.enableLoki = false
    ∧ (countSends ((newEotel 0 0 "w").log cfgNoLoki .info "m" 3).2.1 = 0
      ∧ countSends ((newEotel 0 0 "w").fatal cfgNoLoki "m" 3).2.1 = 0) :=
  ⟨rfl, C8_no_enqueue_when_export_disabled (newEotel 0 0 "w") cfgNoLoki .info "m" 3 rfl⟩

/-- C10: WithField, WithFields and WithError return the logger they were
called on with only the documented mutation applied.  WithField appends
exactly one entry to the field list and one stringified entry to the
span-attribute buffer; WithError with a non-nil error additionally sets the
recorded error (and emits one Sentry capture); WithError with a nil error
changes nothing; all other logger state (context, span, name, creation
time, backend references, instruments) is unchanged, which the record
update equalities express; and fields attached earlier are included in the
field list of every subsequent emission from that logger. -/
theorem C10_attach_mutates_in_place :
    (∀ (l : Eotel) (k : String) (v : GoVal),
        l.withField k v =
          { l with fields := l.fields ++ [⟨k, v⟩],
                   attrs := l.attrs ++ [⟨k, .str v.format⟩] })
    ∧ (∀ (l : Eotel) (msg : String),
        (l.withError (some msg)).1 =
          { l with err := some msg,
                   fields := l.fields ++ [⟨"error", .errv msg⟩],
                   attrs := l.attrs ++ [⟨"error", .str msg⟩] }
        ∧ (l.withError (some msg)).2 = [.sentryCapture msg])
    ∧ (∀ (l : Eotel), l.withError none = (l, []))
    ∧ (∀ (l : Eotel) (calls : List (String × GoVal)),
        l.withFields calls =
          { l with fields := l.fields ++ calls.map (fun p => ⟨p.1, p.2⟩),
                   attrs := l.attrs ++ callerAttrs calls })
    ∧ (∀ (l : Eotel) (k : String) (v : GoVal) (cfg : Config) (lv : Level)
          (msg : String) (d : Nat),
        ∃ tid sid, logWrites ((l.withField k v).log cfg lv msg d).2.1
          = [(lv.toStr, msg, stdFields cfg lv tid sid ++ (l.fields ++ [⟨k, v⟩]))]) := by
  refine ⟨fun l k v => rfl, fun l msg => ⟨rfl, rfl⟩, fun l => rfl,
    fun l calls => withFields_eq calls l, ?_⟩
  intro l k v cfg lv msg d
  refine ⟨(l.withField k v).startSpanIfNeeded.2.1.traceID,
    (l.withField k v).startSpanIfNeeded.2.1.spanID, ?_⟩
  rw [logWrites_log]
  rfl
